import Mathlib

/-!
Verification of the workface-layout and geological-scoring engine of the
`shejixitong` mine-planning backend.

The definitions below are shallow embeddings of
`backend_python/utils/mining_rules.py`,
`backend_python/utils/algorithms.py` and
`backend_python/utils/geology_analysis.py`.  Python floats are modelled by
exact rationals (resp. real numbers where trigonometry is involved); the
geometric primitives of the shapely library are given their exact
mathematical meaning, specialised to the axis-aligned rectangles used in
the layout theorems.
-/

namespace Shejixitong

/-- Python `round` at integer precision: round half to even. -/
def pyRoundInt (q : ℚ) : ℤ :=
  let n := ⌊q⌋
  if q - n < 1/2 then n
  else if 1/2 < q - n then n + 1
  else if n % 2 = 0 then n else n + 1

/-- Python `round(q, 1)`. -/
def pyRound1 (q : ℚ) : ℚ := (pyRoundInt (10 * q) : ℚ) / 10

/-- Python `round(q, 2)`. -/
def pyRound2 (q : ℚ) : ℚ := (pyRoundInt (100 * q) : ℚ) / 100

/-- Python `int(q)`: truncation toward zero. -/
def pyInt (q : ℚ) : ℤ := if 0 ≤ q then ⌊q⌋ else -⌊-q⌋

/-- Python `range(a, b, 10)` over machine integers: `⌈(b-a)/10⌉` entries
(none when `b ≤ a`), the `i`-th being `a + 10·i`. -/
def pyRange10 (a b : ℤ) : List ℤ :=
  (List.range ((b - a + 9).toNat / 10)).map (fun (i : ℕ) => a + 10 * (i : ℤ))

/-- Embedding of the `MiningRules` dataclass (mining_rules.py lines 12-69).
Only the fields read by the layout and validation code are carried. -/
structure MiningRules where
  face_length_min : ℚ := 150
  face_length_max : ℚ := 300
  face_length_preferred : ℚ := 200
  advance_length_min : ℚ := 800
  advance_length_max : ℚ := 2500
  advance_length_preferred : ℚ := 1500
  section_pillar_preferred : ℚ := 20
  boundary_pillar_preferred : ℚ := 30
  layout_direction : String := "strike"
deriving DecidableEq

/-- Default rule instance `DEFAULT_MINING_RULES` (mining_rules.py line 299). -/
def DEFAULT_MINING_RULES : MiningRules := {}

/-- Embedding of `MiningRules.validate_face_length` (mining_rules.py lines 143-155).
The numeric interpolation inside the Python message strings is omitted;
only the fixed message text matters to the claims. -/
def MiningRules.validate_face_length (r : MiningRules) (length : ℚ) : Bool × String :=
  if length < r.face_length_min then (false, "工作面长度小于最小值")
  else if r.face_length_max < length then (false, "工作面长度大于最大值")
  else (true, "符合规程")

/-- Embedding of `MiningRules.validate_advance_length` (mining_rules.py lines 157-164). -/
def MiningRules.validate_advance_length (r : MiningRules) (length : ℚ) : Bool × String :=
  if length < r.advance_length_min then (false, "推进长度小于最小值")
  else if r.advance_length_max < length then (false, "推进长度大于最大值")
  else (true, "符合规程")

/-- Quantity `num_faces` computed inside `_determine_face_length`
(algorithms.py line 372). -/
def num_faces_for (avail pillar : ℚ) (t : ℤ) : ℤ :=
  pyInt ((avail + pillar) / ((t : ℚ) + pillar))

/-- Quantity `waste` computed inside `_determine_face_length`
(algorithms.py lines 377-378). -/
def waste_for (avail pillar : ℚ) (t : ℤ) : ℚ :=
  avail - ((num_faces_for avail pillar t : ℚ) * (t : ℚ)
    + ((num_faces_for avail pillar t : ℚ) - 1) * pillar)

/-- Loop body of the candidate search in `_determine_face_length`
(algorithms.py lines 370-382).  The accumulator is
`(best_length, best_waste)` with `none` standing for the initial
`float('inf')`. -/
def face_length_step (avail pillar : ℚ) (acc : ℚ × Option ℚ) (t : ℤ) : ℚ × Option ℚ :=
  if num_faces_for avail pillar t < 1 then acc
  else
    let w := waste_for avail pillar t
    if 0 ≤ w then
      match acc.2 with
      | none => ((t : ℚ), some w)
      | some bw => if w < bw then ((t : ℚ), some w) else acc
    else acc

/-- Embedding of `_determine_face_length` (algorithms.py lines 351-384). -/
def _determine_face_length (available_length : ℚ) (r : MiningRules) : ℚ :=
  if available_length ≤ r.face_length_max then min available_length r.face_length_max
  else
    let cands := pyRange10 (pyInt r.face_length_min) (pyInt r.face_length_max + 1)
    (cands.foldl (face_length_step available_length r.section_pillar_preferred)
      (r.face_length_preferred, none)).1

/-- The per-fragment validity check of the primary strip sweep
(algorithms.py lines 220-235): the `is_valid` flag together with the list
of advisory validation messages collected in `validation_msgs`. -/
def fragment_validity (r : MiningRules) (part_length part_width : ℚ) : Bool × List String :=
  let lv := r.validate_face_length part_length
  let msgs1 : List String := if lv.1 then [] else [lv.2]
  let valid1 : Bool :=
    if lv.1 then true
    else if part_length < r.face_length_min * 0.6 then false else true
  let av := r.validate_advance_length part_width
  let msgs2 : List String := if av.1 then msgs1 else msgs1 ++ [av.2]
  (valid1, msgs2)

/-- A generated workface record (algorithms.py lines 253-268).  The corner
coordinates and point list, which no claim mentions, are omitted;
`validationMsg` keeps the list of messages rather than their `"; "`-join;
`faceLength`/`advanceLength` are `none` for fallback workfaces, whose
dictionaries do not carry those keys. -/
structure Workface where
  id : String
  width : ℚ
  length : ℚ
  area : ℚ
  avgScore : ℚ
  isValid : Bool
  validationMsg : List String
  faceLength : Option ℚ
  advanceLength : Option ℚ
deriving DecidableEq

instance : Inhabited Workface := ⟨⟨"", 0, 0, 0, 0, false, [], none, none⟩⟩

/-- Workface id rendering `f"WF-{face_id:02d}"`. -/
def wfId (n : ℕ) : String :=
  if n < 10 then "WF-0" ++ toString n else "WF-" ++ toString n

/-- The strip sweep of `generate_smart_layout` (algorithms.py lines
168-274) specialised to an axis-aligned rectangular mining area
`[minX, maxX] × [minY, maxY]` in a rotated frame with rotation angle 0:
every strip intersects the rectangle in exactly one rectangular part
spanning the full x-range (so the MultiPolygon branch of lines 202-208 is
unreachable and `part.bounds` is the strip rectangle itself).  The
geology analyzer is absent, so the score is the synthetic
`75 + 10*(1 - face_id/10)` of line 251.  `fuel` bounds the number of loop
iterations; the top-level caller passes enough fuel for terminating runs,
and every property proved below is insensitive to truncation. -/
def sweepStrips (r : MiningRules) (minX maxX maxY faceLength sectionPillar : ℚ) :
    ℕ → ℚ → ℕ → List Workface
  | 0, _, _ => []
  | fuel + 1, currentY, faceId =>
    if currentY + faceLength ≤ maxY + 1 then
      let stripMaxY := min (currentY + faceLength) maxY
      let actualLength := stripMaxY - currentY
      if actualLength < r.face_length_min * 0.8 then
        sweepStrips r minX maxX maxY faceLength sectionPillar fuel
          (stripMaxY + sectionPillar) faceId
      else
        let partWidth := maxX - minX
        let partArea := partWidth * actualLength
        if partArea < 500 then
          sweepStrips r minX maxX maxY faceLength sectionPillar fuel
            (stripMaxY + sectionPillar) faceId
        else
          let v := fragment_validity r actualLength partWidth
          { id := wfId faceId
            width := partWidth
            length := actualLength
            area := partArea
            avgScore := pyRound1 (75 + 10 * (1 - (faceId : ℚ) / 10))
            isValid := v.1
            validationMsg := v.2
            faceLength := some (pyRound1 actualLength)
            advanceLength := some (pyRound1 partWidth) } ::
          sweepStrips r minX maxX maxY faceLength sectionPillar fuel
            (stripMaxY + sectionPillar) (faceId + 1)
    else []

/-- Result of the layout engine: the workface list, the `stats["error"]`
entry if present, and whether the fallback path produced the result
(visible in the Python output as `miningMethod = "后备方案"`). -/
structure LayoutResult where
  workfaces : List Workface
  error : Option String
  fallback : Bool
deriving DecidableEq

/-- Embedding of `_generate_fallback_layout` (algorithms.py lines 387-476) specialised
to the rectangular rotated area `[minX, maxX] × [minY, maxY]`: each of the
`max 1 ⌊height/200⌋` bands intersects the rectangle in a full-width band
of height `face_height`, so the MultiPolygon branches of lines 433-442 are
unreachable.  The emptiness guard of line 404 is discharged by the caller
(the rectangle is non-degenerate there). -/
def _generate_fallback_layout (minX maxX minY maxY : ℚ) : LayoutResult :=
  let areaWidth := maxX - minX
  let areaHeight := maxY - minY
  if areaHeight ≤ 0 then
    { workfaces := [], error := some "区域高度为零", fallback := true }
  else
    let numFaces : ℕ := max 1 (pyInt (areaHeight / 200)).toNat
    let faceHeight := areaHeight / (numFaces : ℚ)
    let wfs := (List.range numFaces).filterMap fun i =>
      let partArea := areaWidth * faceHeight
      if partArea < 100 then none
      else some
        { id := wfId (i + 1)
          width := areaWidth
          length := faceHeight
          area := partArea
          avgScore := 70
          isValid := false
          validationMsg := ["后备方案生成，可能不符合规程"]
          faceLength := none
          advanceLength := none }
    { workfaces := wfs, error := none, fallback := true }

/-- Boundary inputs covered by the rectangular specialisation: an
axis-aligned rectangle given by two opposite corners, or a degenerate
boundary whose points are all collinear (`Polygon` then has zero area,
its inward buffer is empty). -/
inductive BoundaryShape
  | rect (x0 y0 x1 y1 : ℚ)
  | collinear
deriving DecidableEq

/-- The inward erosion `boundary_poly.buffer(-boundary_margin)` of
(algorithms.py line 93) in the rectangular model: shapely's inward buffer
of the rectangle `[x0, x1] × [y0, y1]` by `m ≥ 0` is the rectangle shrunk
by `m` on each side, empty when a side collapses; the inward buffer of a
degenerate zero-area polygon is empty.  Inward erosion of a convex
rectangle never yields several parts, so the MultiPolygon branch of lines
96-99 is unreachable here. -/
def erode_boundary : BoundaryShape → ℚ → Option (ℚ × ℚ × ℚ × ℚ)
  | .rect x0 y0 x1 y1, m =>
      if x0 + m < x1 - m ∧ y0 + m < y1 - m then some (x0 + m, y0 + m, x1 - m, y1 - m)
      else none
  | .collinear, _ => none

/-- Area of an eroded rectangle `(minX, minY, maxX, maxY)`. -/
def rectArea : ℚ × ℚ × ℚ × ℚ → ℚ
  | (x0, y0, x1, y1) => (x1 - x0) * (y1 - y0)

/-- The test of algorithms.py line 101: the mining area is empty (or has
no `area` attribute) or its area is below 1000 m². -/
def mining_area_too_small (b : BoundaryShape) (m : ℚ) : Bool :=
  match erode_boundary b m with
  | none => true
  | some a => rectArea a < 1000

/-- Embedding of `generate_smart_layout` (algorithms.py lines 48-313) specialised to:
an axis-aligned rectangular (or degenerate collinear) boundary, no manual
roadways, `dip_direction = 270°` with `layout_direction = "strike"` (so
`rotation_angle = -((270+90) mod 360) = 0` at lines 127-131 and rotation
is the identity), and no geology analyzer.  Under rotation 0 the rotated
area equals the mining area and all shapely operations are the exact
rectangle operations used above.  Roadway generation (step 7, line 286)
consumes the returned workfaces only and is embedded separately as
`generate_roadways_v2`. -/
def generate_smart_layout_rect (b : BoundaryShape)
    (face_width pillar_width boundary_margin : ℚ) (r : MiningRules) : LayoutResult :=
  match erode_boundary b boundary_margin with
  | none => { workfaces := [], error := some "可采区面积过小", fallback := false }
  | some (minX, minY, maxX, maxY) =>
    if (maxX - minX) * (maxY - minY) < 1000 then
      { workfaces := [], error := some "可采区面积过小", fallback := false }
    else
      let faceLength := _determine_face_length (maxY - minY) r
      -- `advance_length := face_width` (line 160) is recorded but never
      -- read again by the sweep; `section_pillar` follows line 163 with
      -- Python falsiness of `0.0`.
      let sectionPillar := if pillar_width = 0 then r.section_pillar_preferred else pillar_width
      let fuel := 2 + (⌈maxY + 1 - minY⌉).toNat
      let wfs := sweepStrips r minX maxX maxY faceLength sectionPillar fuel minY 1
      if wfs = [] then _generate_fallback_layout minX maxX minY maxY
      else { workfaces := wfs, error := none, fallback := false }

/-! ### Geological analyzer (geology_analysis.py) -/

/-- Embedding of `CoalSeamInfo` (geology_analysis.py lines 20-30); the fields read by
the scoring and dip code. -/
structure CoalSeamInfo where
  name : String
  thickness : ℚ
  depth : ℚ
  roof_rock : String
  floor_rock : String
deriving DecidableEq

/-- Embedding of `BoreholeGeology` (geology_analysis.py lines 33-42); the fields read by
the scoring and dip code. -/
structure BoreholeGeology where
  id : String
  x : ℚ
  y : ℚ
  coal_seams : List CoalSeamInfo
deriving DecidableEq

/-- Character-list version of Python `needle in hay` (substring test). -/
def charsLeadMatch : List Char → List Char → Bool
  | [], _ => true
  | _ :: _, [] => false
  | a :: as, b :: bs => a == b && charsLeadMatch as bs

/-- Python substring containment over char lists. -/
def charsContain (needle : List Char) : List Char → Bool
  | [] => needle.isEmpty
  | b :: bs => charsLeadMatch needle (b :: bs) || charsContain needle bs

/-- Python `needle in hay` for strings. -/
def strContains (hay needle : String) : Bool :=
  charsContain needle.toList hay.toList

/-- Table `GeologyAnalyzer.ROCK_HARDNESS` (geology_analysis.py lines 50-58),
keys copied verbatim (including the two mojibake entries of the source). -/
def ROCK_HARDNESS : List (String × ℚ) :=
  [("砾岩", 90), ("粗砾岩", 90), ("中砾岩", 85),
   ("砂岩", 80), ("细砂岩", 80), ("中砂岩", 75), ("粗砂岩", 70),
   ("粉砂岩", 60), ("�ite", 60),
   ("泥岩", 40), ("页岩", 35),
   ("炭质泥岩", 25), ("碳质泥岩", 25),
   ("煤", 20), ("腐殖土", 10), ("土", 10),
   ("灰�ite", 85), ("石灰岩", 85)]

/-- Table `GeologyAnalyzer.ROCK_WATER_STABILITY` (geology_analysis.py lines
62-70). -/
def ROCK_WATER_STABILITY : List (String × ℚ) :=
  [("砾岩", 90), ("粗砾岩", 90), ("中砾岩", 85),
   ("砂岩", 85), ("细砂岩", 80), ("中砂岩", 80), ("粗砂岩", 75),
   ("粉砂岩", 60),
   ("泥岩", 30),
   ("炭质泥岩", 20), ("碳质泥岩", 20),
   ("页岩", 25),
   ("灰岩", 90), ("石灰岩", 90)]

/-- First value of the score table whose key is a substring of the rock
name — the lookup loop of `_get_rock_score` (geology_analysis.py lines
439-442), iterating the dict in insertion order. -/
def lookupRockScore : List (String × ℚ) → String → ℚ
  | [], _ => 50
  | (k, v) :: rest, name => if strContains name k then v else lookupRockScore rest name

/-- Embedding of `GeologyAnalyzer._get_rock_score` (geology_analysis.py lines 430-444).
The Python `strip()` of the rock name is omitted: the claims never involve
names with surrounding whitespace. -/
def _get_rock_score (rock_name : String) (rock_type : String) : ℚ :=
  if rock_name = "" then 50
  else lookupRockScore (if rock_type = "roof" then ROCK_HARDNESS else ROCK_WATER_STABILITY)
    rock_name

/-- Suffix classifier of the seam-name pattern `(上|中|下)?`. -/
def isSeamSuffix (c : Char) : Bool := c = '上' || c = '中' || c = '下'

/-- Whitespace skipped by the `\s*` parts of `COAL_PATTERN`. -/
def dropRegexSpace (l : List Char) : List Char :=
  l.dropWhile fun c => c = ' ' || c = '\t' || c = '\n' || c = '\r'

/-- Tail of the match of `COAL_PATTERN` after the leading digits: the
optional `[-_]` separator with following digits, the optional 上/中/下
suffix, rendered as `f"{base}{suffix}煤"`. -/
def seamMatchTail (digits1 : List Char) (rest : List Char) : String :=
  let (base, rest1) :=
    match rest with
    | '-' :: r => (digits1 ++ '-' :: r.takeWhile Char.isDigit, r.dropWhile Char.isDigit)
    | r => (digits1, r)
  let rest2 := dropRegexSpace rest1
  let suffix : List Char :=
    match rest2 with
    | c :: _ => if isSeamSuffix c then [c] else []
    | [] => []
  String.mk (base ++ suffix) ++ "煤"

/-- Leftmost search of `COAL_PATTERN = (\d+[-_]?\d*)\s*(上|中|下)?\s*煤?`
in a character list; the pattern must start with a digit. -/
def findSeamPattern : List Char → Option String
  | [] => none
  | c :: rest =>
    if c.isDigit then
      some (seamMatchTail (c :: rest.takeWhile Char.isDigit) (rest.dropWhile Char.isDigit))
    else findSeamPattern rest

/-- Embedding of `GeologyAnalyzer._normalize_seam_name` (geology_analysis.py lines
204-214): strip spaces, map `_` to `-`, then extract the canonical
`{digits}{suffix}煤` label, falling back to the cleaned name. -/
def _normalize_seam_name (name : String) : String :=
  let cleaned := String.mk ((name.toList.filter (fun c => c != ' ')).map
    (fun c => if c == '_' then '-' else c))
  match findSeamPattern cleaned.toList with
  | some s => s
  | none => cleaned

/-- The seam filter of the data-point collection loop
(geology_analysis.py line 360). -/
def seamMatches (target : Option String) (s : CoalSeamInfo) : Bool :=
  match target with
  | none => true
  | some t => _normalize_seam_name s.name == t

/-- One collected data point (geology_analysis.py lines 361-368). -/
structure SeamDataPoint where
  x : ℚ
  y : ℚ
  thickness : ℚ
  depth : ℚ
  roof_rock : String
  floor_rock : String
deriving DecidableEq

/-- The per-borehole first matching seam (the inner loop of
geology_analysis.py lines 358-369 `break`s after the first match). -/
def boreholeDataPoint (target : Option String) (bh : BoreholeGeology) : Option SeamDataPoint :=
  (bh.coal_seams.find? (seamMatches target)).map fun s =>
    ⟨bh.x, bh.y, s.thickness, s.depth, s.roof_rock, s.floor_rock⟩

/-- The data points collected by `calculate_score_at_point`
(geology_analysis.py lines 356-369). -/
def collectDataPoints (bhs : List BoreholeGeology) (target : Option String) :
    List SeamDataPoint :=
  bhs.filterMap (boreholeDataPoint target)

/-- The raw IDW weight of one data point (geology_analysis.py lines
375-380): `dist = max(sqrt(dx²+dy²), 1)` then `1/dist²`; squaring the
clamped distance gives `1/max(dx²+dy², 1)` exactly. -/
def idwWeight (x y : ℚ) (dp : SeamDataPoint) : ℚ :=
  let d2 := (dp.x - x) ^ 2 + (dp.y - y) ^ 2
  if d2 < 1 then 1 else 1 / d2

/-- The thickness step function of geology_analysis.py lines 402-412. -/
def thicknessStep (avg_thickness : ℚ) : ℚ :=
  if avg_thickness < 0.8 then 20
  else if avg_thickness < 1.3 then 60
  else if avg_thickness < 3.5 then 90
  else if avg_thickness < 6 then 80
  else 70

/-- Result dictionary of `calculate_score_at_point`; `none` fields model
keys absent from the Python dict (the no-data return of line 372 carries
only `total_score` and `message`). -/
structure ScoreResult where
  total_score : ℚ
  thickness_score : Option ℚ
  roof_score : Option ℚ
  floor_score : Option ℚ
  interpolated_thickness : Option ℚ
  data_points_count : Option ℕ
  message : Option String
deriving DecidableEq

/-- Embedding of `GeologyAnalyzer.calculate_score_at_point` (geology_analysis.py lines
343-428) as a function of the analyzer's borehole list.  The parallel
`weights` list of the Python code is normalised by its sum and then zipped
with `data_points`; since both lists are mapped from the same
`data_points`, the zipped sums are written as single sums here. -/
def calculate_score_at_point (bhs : List BoreholeGeology) (x y : ℚ)
    (target : Option String) : ScoreResult :=
  let data_points := collectDataPoints bhs target
  if data_points = [] then
    { total_score := 50, thickness_score := none, roof_score := none,
      floor_score := none, interpolated_thickness := none,
      data_points_count := none, message := some "无数据" }
  else
    let total_weight := (data_points.map (idwWeight x y)).sum
    let avg_thickness :=
      (data_points.map fun dp => dp.thickness * (idwWeight x y dp / total_weight)).sum
    let avg_roof_score :=
      (data_points.map fun dp =>
        _get_rock_score dp.roof_rock "roof" * (idwWeight x y dp / total_weight)).sum
    let avg_floor_score :=
      (data_points.map fun dp =>
        _get_rock_score dp.floor_rock "floor" * (idwWeight x y dp / total_weight)).sum
    let thickness_score := thicknessStep avg_thickness
    let total_score :=
      thickness_score * 0.40 + avg_roof_score * 0.35 + avg_floor_score * 0.25
    { total_score := pyRound1 total_score
      thickness_score := some (pyRound1 thickness_score)
      roof_score := some (pyRound1 avg_roof_score)
      floor_score := some (pyRound1 avg_floor_score)
      interpolated_thickness := some (pyRound2 avg_thickness)
      data_points_count := some data_points.length
      message := none }

/-- Specification-side scoring total, following the spec's words for
claim C4: inverse-square-distance weights `1/max(dist,1)²` normalised to
sum to 1 are expressed as the ratio of weighted sum to weight sum;
thickness is the weighted average, mapped through the step function;
total = `0.40·thicknessScore + 0.35·roofScore + 0.25·floorScore` rounded
to one decimal.  Zero matching boreholes give the neutral default 50 with
a no-data signal (`true` in the second component). -/
def specTotalScore (bhs : List BoreholeGeology) (x y : ℚ)
    (target : Option String) : ℚ × Bool :=
  let dps := collectDataPoints bhs target
  if dps = [] then (50, true)
  else
    let wsum := (dps.map (idwWeight x y)).sum
    let thickness := (dps.map fun dp => dp.thickness * idwWeight x y dp).sum / wsum
    let roof := (dps.map fun dp => _get_rock_score dp.roof_rock "roof" * idwWeight x y dp).sum / wsum
    let floor := (dps.map fun dp => _get_rock_score dp.floor_rock "floor" * idwWeight x y dp).sum / wsum
    (pyRound1 (thicknessStep thickness * 0.40 + roof * 0.35 + floor * 0.25), false)

/-- Outcome of `calculate_dip_angle` (geology_analysis.py lines 229-341).
`degraded` covers the early returns that carry literal zero angles and a
confidence string (lines 248-257, 269, 280-288); `planeFit` carries the
exact `(x, y, -depth)` triples handed to the least-squares plane fit of
lines 290-333, whose trigonometric post-processing no claim inspects. -/
inductive DipAngleResult
  | degraded (dip_angle dip_direction : ℚ) (points_used : ℕ) (confidence : String)
  | planeFit (points : List (ℚ × ℚ × ℚ))
deriving DecidableEq

/-- The `(x, y, -depth)` collection loop of geology_analysis.py lines
272-279: per borehole, the first seam whose normalised name equals the
target contributes one point. -/
def dipPointsFor (bhs : List BoreholeGeology) (target : String) : List (ℚ × ℚ × ℚ) :=
  bhs.filterMap fun bh =>
    (bh.coal_seams.find? fun s => _normalize_seam_name s.name == target).map
      fun s => (bh.x, bh.y, -s.depth)

/-- The seam-frequency table of geology_analysis.py lines 261-265, an
association list in first-seen order. -/
def seamCounts (bhs : List BoreholeGeology) : List (String × ℕ) :=
  bhs.foldl (fun acc bh =>
    bh.coal_seams.foldl (fun acc2 s =>
      let n := _normalize_seam_name s.name
      match acc2.find? (fun p => p.1 == n) with
      | some _ => acc2.map fun p => if p.1 == n then (p.1, p.2 + 1) else p
      | none => acc2 ++ [(n, 1)]) acc) []

/-- Python `max(seam_counts, key=seam_counts.get)`: the first key of the
insertion-ordered dict attaining the maximal count. -/
def mostCommonSeam (counts : List (String × ℕ)) : Option String :=
  match counts with
  | [] => none
  | c :: rest =>
    some (rest.foldl (fun best p => if best.2 < p.2 then p else best) c).1

/-- Embedding of `GeologyAnalyzer.calculate_dip_angle` (geology_analysis.py lines
229-341) as a function of the analyzer's borehole list. -/
def calculate_dip_angle (bhs : List BoreholeGeology) (target : Option String) :
    DipAngleResult :=
  if bhs.length < 3 then .degraded 0 0 bhs.length "low"
  else
    match target with
    | none =>
      match mostCommonSeam (seamCounts bhs) with
      | none => .degraded 0 0 0 "none"
      | some t =>
        let pts := dipPointsFor bhs t
        if pts.length < 3 then .degraded 0 0 pts.length "low" else .planeFit pts
    | some t =>
      let pts := dipPointsFor bhs t
      if pts.length < 3 then .degraded 0 0 pts.length "low" else .planeFit pts

/-! ### Roadway synthesizer (algorithms.py `generate_roadways_v2`) -/

/-- A planar point with real coordinates (rotation involves trigonometry). -/
def RPoint : Type := ℝ × ℝ

/-- Euclidean distance, shapely `Point.distance`. -/
noncomputable def pointDist (p q : RPoint) : ℝ :=
  Real.sqrt ((p.1 - q.1) ^ 2 + (p.2 - q.2) ^ 2)

/-- shapely `rotate(geom, angle, origin)` on a point: counter-clockwise
rotation by `angle` degrees about `origin`. -/
noncomputable def rotateDeg (angle : ℝ) (origin p : RPoint) : RPoint :=
  let θ := angle * Real.pi / 180
  (origin.1 + Real.cos θ * (p.1 - origin.1) - Real.sin θ * (p.2 - origin.2),
   origin.2 + Real.sin θ * (p.1 - origin.1) + Real.cos θ * (p.2 - origin.2))

/-- Polyline length: the sum of consecutive-point Euclidean distances. -/
noncomputable def pathLength : List RPoint → ℝ
  | p :: q :: rest => pointDist p q + pathLength (q :: rest)
  | _ => 0

/-- The workface fields read by `generate_roadways_v2` (algorithms.py
lines 527-536; `width`/`length` defaults of `.get` never fire since every
generated workface carries both keys). -/
structure RoadwayWF where
  id : String
  center_x : ℝ
  center_y : ℝ
  width : ℝ
  length : ℝ

/-- A generated roadway record (algorithms.py lines 574-671). -/
structure Roadway where
  id : String
  name : String
  type : String
  workface : Option String
  path : List RPoint
  length : ℝ

instance : Inhabited Roadway := ⟨⟨"", "", "", none, [], 0⟩⟩

/-- A rotated workface center with carried metadata (algorithms.py lines
526-536). -/
structure RotCenter where
  x : ℝ
  y : ℝ
  id : String
  width : ℝ
  length : ℝ

/-- Minimum of a mapped non-empty list (Python `min(gen)`); 0 for the
empty list, which `generate_roadways_v2` never reaches. -/
noncomputable def listMinOf (f : RotCenter → ℝ) : List RotCenter → ℝ
  | [] => 0
  | c :: rest => rest.foldl (fun m p => min m (f p)) (f c)

/-- Maximum of a mapped non-empty list (Python `max(gen)`). -/
noncomputable def listMaxOf (f : RotCenter → ℝ) : List RotCenter → ℝ
  | [] => 0
  | c :: rest => rest.foldl (fun m p => max m (f p)) (f c)

/-- The three per-workface roadways (algorithms.py lines 603-671):
transport lane, return lane and cut, for the `i`-th rotated center. -/
noncomputable def workfaceRoadways (rotation_angle : ℝ) (centroid : RPoint)
    (transport_main_x : ℝ) (i : ℕ) (wf : RotCenter) : List Roadway :=
  let wf_half_len := wf.length / 2
  let wf_half_width := wf.width / 2
  let wf_right_x := wf.x + wf_half_width
  let transport_lane_y := wf.y + wf_half_len
  let tls : RPoint := (transport_main_x, transport_lane_y)
  let tle : RPoint := (wf_right_x, transport_lane_y)
  let rtls := rotateDeg (-rotation_angle) centroid tls
  let rtle := rotateDeg (-rotation_angle) centroid tle
  let return_lane_y := wf.y - wf_half_len
  let rls : RPoint := (transport_main_x, return_lane_y)
  let rle : RPoint := (wf_right_x, return_lane_y)
  let rrls := rotateDeg (-rotation_angle) centroid rls
  let rrle := rotateDeg (-rotation_angle) centroid rle
  let cs : RPoint := (wf_right_x, return_lane_y)
  let ce : RPoint := (wf_right_x, transport_lane_y)
  let rcs := rotateDeg (-rotation_angle) centroid cs
  let rce := rotateDeg (-rotation_angle) centroid ce
  [{ id := "Transport-Lane-" ++ toString (i + 1)
     name := wf.id ++ "运输顺槽"
     type := "transport"
     workface := some wf.id
     path := [rtls, rtle]
     length := pointDist tls tle },
   { id := "Return-Lane-" ++ toString (i + 1)
     name := wf.id ++ "回风顺槽"
     type := "return"
     workface := some wf.id
     path := [rrls, rrle]
     length := pointDist rls rle },
   { id := "Cut-" ++ toString (i + 1)
     name := wf.id ++ "开切眼"
     type := "cut"
     workface := some wf.id
     path := [rcs, rce]
     length := pointDist cs ce }]

/-- Embedding of `generate_roadways_v2` (algorithms.py lines 479-673).  The Python
`rotated_area` argument only feeds the dead local `area_min_x` (lines
549-553), so it is reduced to its bounds' first coordinate here. -/
noncomputable def generate_roadways_v2 (workfaces : List RoadwayWF)
    (rotation_angle : ℝ) (centroid : Option RPoint) (rotated_area_min_x : Option ℝ) :
    List Roadway :=
  match workfaces with
  | [] => []
  | _ :: _ =>
    let ctr : RPoint :=
      match centroid with
      | some c => c
      | none =>
        ((workfaces.map (fun wf => wf.center_x)).sum / (workfaces.length : ℝ),
         (workfaces.map (fun wf => wf.center_y)).sum / (workfaces.length : ℝ))
    let rotated_centers : List RotCenter := workfaces.map fun wf =>
      let rp := rotateDeg rotation_angle ctr (wf.center_x, wf.center_y)
      { x := rp.1, y := rp.2, id := wf.id, width := wf.width, length := wf.length }
    let wf_min_x := listMinOf (fun p => p.x - p.width / 2) rotated_centers
    let wf_min_y := listMinOf (fun p => p.y - p.length / 2) rotated_centers
    let wf_max_y := listMaxOf (fun p => p.y + p.length / 2) rotated_centers
    let _area_min_x :=
      match rotated_area_min_x with
      | some v => v
      | none => wf_min_x - 100
    let main_road_spacing : ℝ := 15
    let main_x := wf_min_x - 30
    let transport_main_x := main_x
    let ventilation_main_x := main_x - main_road_spacing
    let main_road_y_start := wf_min_y - 50
    let main_road_y_end := wf_max_y + 50
    let ts : RPoint := (transport_main_x, main_road_y_start)
    let te : RPoint := (transport_main_x, main_road_y_end)
    let rts := rotateDeg (-rotation_angle) ctr ts
    let rte := rotateDeg (-rotation_angle) ctr te
    let vs : RPoint := (ventilation_main_x, main_road_y_start)
    let ve : RPoint := (ventilation_main_x, main_road_y_end)
    let rvs := rotateDeg (-rotation_angle) ctr vs
    let rve := rotateDeg (-rotation_angle) ctr ve
    { id := "Main-Transport", name := "运输大巷", type := "main", workface := none,
      path := [rts, rte], length := pointDist ts te } ::
    { id := "Main-Ventilation", name := "回风大巷", type := "ventilation", workface := none,
      path := [rvs, rve], length := pointDist vs ve } ::
    ((List.enumFrom 0 rotated_centers).flatMap fun p =>
      workfaceRoadways rotation_angle ctr transport_main_x p.1 p.2)

/-- Concrete layout run used for claim C1: a 560 m × 260 m rectangular
boundary with a 30 m margin leaves a 500 m × 200 m mining area, whose
single workface has a compliant face length (200 m) but an advance length
(500 m) below `advance_length_min = 800`. -/
def c1Layout : LayoutResult :=
  generate_smart_layout_rect (.rect 0 0 560 260) 200 20 30 DEFAULT_MINING_RULES

/-- Concrete borehole with a single target seam, used by the IDW scoring
scenarios: thickness `th` at `(x, y)`, best-case lithology (`砾岩`, which
scores 90 in both lookup tables). -/
def scenarioBorehole (id : String) (x y th : ℚ) : BoreholeGeology :=
  ⟨id, x, y, [⟨"15-4煤", th, 100, "砾岩", "砾岩"⟩]⟩

/-- Analyzer state of the C5 scenario: 3 boreholes with target-seam
thickness exactly 3.5 m, one of them at the query point `(0, 0)`. -/
def c5Analyzer : List BoreholeGeology :=
  [scenarioBorehole "ZK1" 0 0 3.5, scenarioBorehole "ZK2" 4 0 3.5,
   scenarioBorehole "ZK3" 0 4 3.5]

/-- Variant of the C5 scenario with thickness 3.4 m, strictly inside the
optimum band of the step function. -/
def c5Analyzer34 : List BoreholeGeology :=
  [scenarioBorehole "ZK1" 0 0 3.4, scenarioBorehole "ZK2" 4 0 3.4,
   scenarioBorehole "ZK3" 0 4 3.4]

/-- Concrete single-workface input for the roadway-length witness. -/
def c9Args : List RoadwayWF := [⟨"WF-01", 100, 0, 200, 150⟩]

/-! ### Helper lemmas -/

theorem validate_face_length_ok (r : MiningRules) (l : ℚ) :
    (r.validate_face_length l).1 = true ↔ r.face_length_min ≤ l ∧ l ≤ r.face_length_max := by
  unfold MiningRules.validate_face_length
  split
  · rename_i h1
    constructor
    · intro h; exact absurd h (by simp)
    · rintro ⟨h, -⟩; exact absurd h1 (not_lt.mpr h)
  · split
    · rename_i h1 h2
      constructor
      · intro h; exact absurd h (by simp)
      · rintro ⟨-, h⟩; exact absurd h2 (not_lt.mpr h)
    · rename_i h1 h2
      exact ⟨fun _ => ⟨not_lt.mp h1, not_lt.mp h2⟩, fun _ => rfl⟩

theorem validate_advance_length_ok (r : MiningRules) (l : ℚ) :
    (r.validate_advance_length l).1 = true ↔
      r.advance_length_min ≤ l ∧ l ≤ r.advance_length_max := by
  unfold MiningRules.validate_advance_length
  split
  · rename_i h1
    constructor
    · intro h; exact absurd h (by simp)
    · rintro ⟨h, -⟩; exact absurd h1 (not_lt.mpr h)
  · split
    · rename_i h1 h2
      constructor
      · intro h; exact absurd h (by simp)
      · rintro ⟨-, h⟩; exact absurd h2 (not_lt.mpr h)
    · rename_i h1 h2
      exact ⟨fun _ => ⟨not_lt.mp h1, not_lt.mp h2⟩, fun _ => rfl⟩

theorem fragment_validity_false_iff (r : MiningRules) (pl pw : ℚ)
    (h : 0 ≤ r.face_length_min) :
    ((fragment_validity r pl pw).1 = false) ↔ pl < r.face_length_min * 0.6 := by
  by_cases h1 : (r.validate_face_length pl).1
  · have hge : r.face_length_min ≤ pl := ((validate_face_length_ok r pl).mp h1).1
    have : ¬ pl < r.face_length_min * 0.6 := by
      apply not_lt.mpr
      calc r.face_length_min * 0.6 ≤ r.face_length_min := by nlinarith
        _ ≤ pl := hge
    simp [fragment_validity, h1, this]
  · by_cases h2 : pl < r.face_length_min * 0.6
    · simp [fragment_validity, h1, h2]
    · simp [fragment_validity, h1, h2]

theorem fragment_validity_msgs_ne (r : MiningRules) (pl pw : ℚ)
    (h : (r.validate_face_length pl).1 = false ∨ (r.validate_advance_length pw).1 = false) :
    (fragment_validity r pl pw).2 ≠ [] := by
  by_cases h1 : (r.validate_face_length pl).1 <;>
    by_cases h2 : (r.validate_advance_length pw).1 <;>
      simp [fragment_validity, h1, h2] <;> simp [h1, h2] at h

theorem fragment_validity_true_of_ge (r : MiningRules) (pl pw : ℚ)
    (h : 0 ≤ r.face_length_min) (hge : r.face_length_min * 0.6 ≤ pl) :
    (fragment_validity r pl pw).1 = true := by
  rcases Bool.eq_false_or_eq_true (fragment_validity r pl pw).1 with hb | hb
  · exact hb
  · exact absurd ((fragment_validity_false_iff r pl pw h).mp hb) (not_lt.mpr hge)

theorem sweepStrips_isValid_eq (r : MiningRules) (minX maxX maxY fl sp : ℚ) :
    ∀ (fuel : ℕ) (cy : ℚ) (fid : ℕ) (wf : Workface),
      wf ∈ sweepStrips r minX maxX maxY fl sp fuel cy fid →
      wf.isValid = (fragment_validity r wf.length wf.width).1 := by
  intro fuel
  induction fuel with
  | zero => intro cy fid wf hmem; simp [sweepStrips] at hmem
  | succ n ih =>
    intro cy fid wf hmem
    simp only [sweepStrips] at hmem
    split at hmem
    · split at hmem
      · exact ih _ _ _ hmem
      · split at hmem
        · exact ih _ _ _ hmem
        · rcases List.mem_cons.mp hmem with hh | ht
          · subst hh; rfl
          · exact ih _ _ _ ht
    · simp at hmem

theorem fallback_isValid_false (a b c d : ℚ) (wf : Workface)
    (hmem : wf ∈ (_generate_fallback_layout a b c d).workfaces) :
    wf.isValid = false := by
  unfold _generate_fallback_layout at hmem
  dsimp only at hmem
  split at hmem
  · simp at hmem
  · simp only [List.mem_filterMap] at hmem
    obtain ⟨i, -, hi⟩ := hmem
    split at hi
    · exact Option.noConfusion hi
    · cases hi; rfl

theorem fallback_flag_true (a b c d : ℚ) :
    (_generate_fallback_layout a b c d).fallback = true := by
  unfold _generate_fallback_layout
  dsimp only
  split <;> rfl

theorem fallback_error_cases (a b c d : ℚ) :
    (_generate_fallback_layout a b c d).error = some "区域高度为零"
    ∨ (_generate_fallback_layout a b c d).error = none := by
  unfold _generate_fallback_layout
  dsimp only
  split
  · left; rfl
  · right; rfl

theorem generate_smart_layout_rect_cases (b : BoundaryShape) (fw pw m : ℚ) (r : MiningRules) :
    (generate_smart_layout_rect b fw pw m r
        = ⟨[], some "可采区面积过小", false⟩ ∧ mining_area_too_small b m = true)
    ∨ ((∃ mX mY MX MY, generate_smart_layout_rect b fw pw m r
          = _generate_fallback_layout mX MX mY MY)
        ∧ mining_area_too_small b m = false)
    ∨ ((∃ mX MX MY flen sp fuel cy,
          generate_smart_layout_rect b fw pw m r
            = ⟨sweepStrips r mX MX MY flen sp fuel cy 1, none, false⟩
          ∧ sweepStrips r mX MX MY flen sp fuel cy 1 ≠ [])
        ∧ mining_area_too_small b m = false) := by
  unfold generate_smart_layout_rect mining_area_too_small
  cases herode : erode_boundary b m with
  | none => left; exact ⟨rfl, rfl⟩
  | some a =>
    obtain ⟨minX, minY, maxX, maxY⟩ := a
    dsimp only
    by_cases hlt : (maxX - minX) * (maxY - minY) < 1000
    · left
      rw [if_pos hlt]
      exact ⟨rfl, by simp [rectArea, hlt]⟩
    · have hts : (decide (rectArea (minX, minY, maxX, maxY) < 1000)) = false := by
        simp [rectArea, hlt]
      rw [if_neg hlt]
      right
      by_cases hpw : pw = 0
      · rw [if_pos hpw]
        split
        · left
          exact ⟨⟨minX, minY, maxX, maxY, rfl⟩, hts⟩
        · rename_i hemp
          right
          exact ⟨⟨minX, maxX, maxY, _, _, _, _, rfl, hemp⟩, hts⟩
      · rw [if_neg hpw]
        split
        · left
          exact ⟨⟨minX, minY, maxX, maxY, rfl⟩, hts⟩
        · rename_i hemp
          right
          exact ⟨⟨minX, maxX, maxY, _, _, _, _, rfl, hemp⟩, hts⟩

/-! ### Claim theorems -/

/-- C2 (confirmed): in the primary strip sweep, a fragment's `isValid`
flag is `false` exactly when its face length is below 0.6 times
`face_length_min`; a fragment whose face length fails
`validate_face_length` but is at least 0.6 times the minimum, or whose
advance length fails `validate_advance_length`, still gets
`isValid = true` together with an advisory validation message. -/
theorem fragment_isValid_threshold_rule (r : MiningRules) (pl pw : ℚ)
    (h : 0 ≤ r.face_length_min) :
    (((fragment_validity r pl pw).1 = false) ↔ pl < r.face_length_min * 0.6)
    ∧ ((r.validate_face_length pl).1 = false → r.face_length_min * 0.6 ≤ pl →
        (fragment_validity r pl pw).1 = true ∧ (fragment_validity r pl pw).2 ≠ [])
    ∧ ((r.validate_advance_length pw).1 = false → r.face_length_min * 0.6 ≤ pl →
        (fragment_validity r pl pw).1 = true ∧ (fragment_validity r pl pw).2 ≠ []) := by
  refine ⟨fragment_validity_false_iff r pl pw h, ?_, ?_⟩
  · intro hf hge
    exact ⟨fragment_validity_true_of_ge r pl pw h hge,
      fragment_validity_msgs_ne r pl pw (Or.inl hf)⟩
  · intro hf hge
    exact ⟨fragment_validity_true_of_ge r pl pw h hge,
      fragment_validity_msgs_ne r pl pw (Or.inr hf)⟩

/-- Witness for C2 at the default rules and a fragment with face length
140 m (mildly short) and advance length 500 m (fails the advance bound). -/
theorem fragment_isValid_threshold_rule_witness :
    ((0:ℚ) ≤ DEFAULT_MINING_RULES.face_length_min)
    ∧ (((fragment_validity DEFAULT_MINING_RULES 140 500).1 = false) ↔
        (140:ℚ) < DEFAULT_MINING_RULES.face_length_min * 0.6) :=
  ⟨by decide, (fragment_isValid_threshold_rule DEFAULT_MINING_RULES 140 500 (by decide)).1⟩

theorem c1Layout_sweep_tail :
    sweepStrips DEFAULT_MINING_RULES 30 530 230 200 20 202 250 2 = [] := by
  rw [show (202:ℕ) = 201 + 1 by norm_num]
  rw [sweepStrips]
  norm_num

theorem c1Layout_sweep :
    sweepStrips DEFAULT_MINING_RULES 30 530 230 200 20 203 30 1 =
      [⟨"WF-01", 500, 200, 100000, 84, true, ["推进长度小于最小值"], some 200, some 500⟩] := by
  rw [show (203:ℕ) = 202 + 1 by norm_num]
  rw [sweepStrips]
  norm_num [fragment_validity, MiningRules.validate_face_length,
    MiningRules.validate_advance_length, wfId, pyRound1, pyRoundInt, DEFAULT_MINING_RULES,
    c1Layout_sweep_tail]
  exact ⟨by decide, c1Layout_sweep_tail⟩

theorem c1Layout_eval : c1Layout =
    { workfaces := [⟨"WF-01", 500, 200, 100000, 84, true, ["推进长度小于最小值"],
        some 200, some 500⟩],
      error := none, fallback := false } := by
  unfold c1Layout generate_smart_layout_rect
  rw [show erode_boundary (.rect 0 0 560 260) 30 = some (30, 30, 530, 230) by
    norm_num [erode_boundary]]
  dsimp only
  rw [if_neg (by norm_num)]
  rw [show _determine_face_length (230 - 30) DEFAULT_MINING_RULES = 200 by
    norm_num [_determine_face_length, DEFAULT_MINING_RULES]]
  rw [if_neg (by norm_num : ¬(20:ℚ) = 0)]
  rw [show (2 + (⌈(230:ℚ) + 1 - 30⌉).toNat) = 203 by norm_num; rfl]
  rw [c1Layout_sweep]
  rw [if_neg (by simp)]

/-- C1 counterexample: `generate_smart_layout` produces a workface with
`isValid = true` whose advance length (500 m) fails
`validate_advance_length`, so `isValid` is not equivalent to the
conjunction of the two validations. -/
theorem workface_isValid_equivalence_counterexample :
    (c1Layout.workfaces.map fun w =>
      (w.isValid,
        ((DEFAULT_MINING_RULES.validate_face_length w.length).1
          && (DEFAULT_MINING_RULES.validate_advance_length (w.advanceLength.getD 0)).1)))
      = [(true, false)] ∧ c1Layout.fallback = false := by
  rw [c1Layout_eval]
  norm_num [MiningRules.validate_face_length, MiningRules.validate_advance_length,
    DEFAULT_MINING_RULES]

/-- C1 (amended): for workfaces of the primary sweep, `isValid` is true
exactly when the face length is at least 0.6 times `face_length_min`
(the advance-length validation never affects the flag); every workface
produced by the fallback mode has `isValid = false`. -/
theorem workface_isValid_threshold (b : BoundaryShape) (fw pw m : ℚ) (r : MiningRules)
    (wf : Workface) (h0 : 0 ≤ r.face_length_min)
    (hmem : wf ∈ (generate_smart_layout_rect b fw pw m r).workfaces) :
    ((generate_smart_layout_rect b fw pw m r).fallback = false →
      (wf.isValid = true ↔ r.face_length_min * 0.6 ≤ wf.length))
    ∧ ((generate_smart_layout_rect b fw pw m r).fallback = true → wf.isValid = false) := by
  rcases generate_smart_layout_rect_cases b fw pw m r with
    ⟨heq, -⟩ | ⟨⟨mX, mY, MX, MY, heq⟩, -⟩ | ⟨⟨mX, MX, MY, flen, sp, fuel, cy, heq, -⟩, -⟩
  · rw [heq] at hmem; simp at hmem
  · rw [heq] at hmem ⊢
    refine ⟨fun hfb => ?_, fun _ => fallback_isValid_false _ _ _ _ _ hmem⟩
    rw [fallback_flag_true] at hfb
    exact absurd hfb (by simp)
  · rw [heq] at hmem ⊢
    constructor
    · intro _
      rw [sweepStrips_isValid_eq r mX MX MY flen sp fuel cy 1 wf hmem]
      constructor
      · intro hT
        by_contra hlt
        have := (fragment_validity_false_iff r wf.length wf.width h0).mpr (not_le.mp hlt)
        rw [hT] at this
        exact absurd this (by simp)
      · exact fragment_validity_true_of_ge r wf.length wf.width h0
    · intro hfb
      exact absurd hfb (by simp)

/-- Witness for C1 (amended) at the concrete layout `c1Layout`. -/
theorem workface_isValid_threshold_witness :
    ((0:ℚ) ≤ DEFAULT_MINING_RULES.face_length_min)
    ∧ c1Layout.workfaces.headI ∈ c1Layout.workfaces
    ∧ (c1Layout.fallback = false →
        (c1Layout.workfaces.headI.isValid = true ↔
          DEFAULT_MINING_RULES.face_length_min * 0.6 ≤ c1Layout.workfaces.headI.length)) :=
  ⟨by decide, by rw [c1Layout_eval]; simp,
    (workface_isValid_threshold (.rect 0 0 560 260) 200 20 30 DEFAULT_MINING_RULES
      c1Layout.workfaces.headI (by decide)
      (by show c1Layout.workfaces.headI ∈ c1Layout.workfaces
          rw [c1Layout_eval]; simp)).1⟩

/-- C3 (confirmed): the layout engine returns the "mining area too small"
error result — empty workface list, hence also an empty roadway list —
exactly when the eroded mining area is empty or has area below 1000 m²;
in particular a degenerate all-collinear boundary yields this error. -/
theorem layout_insufficient_area (b : BoundaryShape) (fw pw m : ℚ) (r : MiningRules) :
    ((generate_smart_layout_rect b fw pw m r).error = some "可采区面积过小"
        ↔ mining_area_too_small b m = true)
    ∧ ((generate_smart_layout_rect b fw pw m r).error = some "可采区面积过小" →
        (generate_smart_layout_rect b fw pw m r).workfaces = [])
    ∧ (generate_smart_layout_rect .collinear fw pw m r
        = ⟨[], some "可采区面积过小", false⟩)
    ∧ (∀ (θ : ℝ) (c : Option RPoint) (ra : Option ℝ), generate_roadways_v2 [] θ c ra = []) := by
  refine ⟨?_, ?_, rfl, fun θ c ra => rfl⟩
  · rcases generate_smart_layout_rect_cases b fw pw m r with
      ⟨heq, hts⟩ | ⟨⟨mX, mY, MX, MY, heq⟩, hts⟩ | ⟨⟨mX, MX, MY, flen, sp, fuel, cy, heq, -⟩, hts⟩
    · rw [heq, hts]
      exact ⟨fun _ => rfl, fun _ => rfl⟩
    · rw [heq, hts]
      constructor
      · intro hc
        rcases fallback_error_cases mX MX mY MY with he | he
        · rw [he] at hc
          exact absurd (Option.some.inj hc) (by decide)
        · rw [he] at hc
          exact absurd hc (by simp)
      · intro hc
        exact absurd hc (by simp)
    · rw [heq, hts]
      constructor
      · intro hc
        exact absurd hc (by simp)
      · intro hc
        exact absurd hc (by simp)
  · rcases generate_smart_layout_rect_cases b fw pw m r with
      ⟨heq, -⟩ | ⟨⟨mX, mY, MX, MY, heq⟩, -⟩ | ⟨⟨mX, MX, MY, flen, sp, fuel, cy, heq, -⟩, -⟩
    · rw [heq]
      intro _; rfl
    · rw [heq]
      intro hc
      rcases fallback_error_cases mX MX mY MY with he | he
      · rw [he] at hc
        exact absurd (Option.some.inj hc) (by decide)
      · rw [he] at hc
        exact absurd hc (by simp)
    · rw [heq]
      intro hc
      exact absurd hc (by simp)

theorem pyRange10_bounds {a b t : ℤ} (h : t ∈ pyRange10 a b) : a ≤ t ∧ t < b := by
  unfold pyRange10 at h
  simp only [List.mem_map, List.mem_range] at h
  obtain ⟨i, hi, rfl⟩ := h
  omega

theorem pyRange10_ne_nil {a b : ℤ} (h : a ≤ b) : pyRange10 a (b + 1) ≠ [] := by
  unfold pyRange10
  simp only [ne_eq, List.map_eq_nil_iff, List.range_eq_nil]
  omega

theorem num_faces_pos (L p : ℚ) (t : ℤ) (hp : 0 < (t:ℚ) + p) (hL : (t:ℚ) ≤ L) :
    1 ≤ num_faces_for L p t := by
  unfold num_faces_for pyInt
  have h1 : (1:ℚ) ≤ (L + p) / ((t:ℚ) + p) := by
    rw [le_div_iff hp]
    linarith
  rw [if_pos (le_trans zero_le_one h1)]
  exact Int.le_floor.mpr (by exact_mod_cast h1)

theorem waste_nonneg (L p : ℚ) (t : ℤ) (hp : 0 < (t:ℚ) + p) (hL : (t:ℚ) ≤ L) :
    0 ≤ waste_for L p t := by
  have hnf : (num_faces_for L p t : ℚ) ≤ (L + p) / ((t:ℚ) + p) := by
    unfold num_faces_for pyInt
    rw [if_pos (div_nonneg (by linarith) (le_of_lt hp))]
    exact Int.floor_le _
  have hmul : (num_faces_for L p t : ℚ) * ((t:ℚ) + p) ≤ L + p := by
    have := mul_le_mul_of_nonneg_right hnf (le_of_lt hp)
    rwa [div_mul_cancel₀ _ (ne_of_gt hp)] at this
  unfold waste_for
  nlinarith [hmul]

theorem face_length_fold_some (L p : ℚ) :
    ∀ (l : List ℤ) (t0 : ℤ),
      (∀ u ∈ l, 1 ≤ num_faces_for L p u ∧ 0 ≤ waste_for L p u) →
      (l.foldl (face_length_step L p) ((t0:ℚ), some (waste_for L p t0))
          = ((t0:ℚ), some (waste_for L p t0))
        ∧ ∀ u ∈ l, waste_for L p t0 ≤ waste_for L p u)
      ∨ (∃ t l1 l2, l = l1 ++ t :: l2 ∧ waste_for L p t < waste_for L p t0
          ∧ l.foldl (face_length_step L p) ((t0:ℚ), some (waste_for L p t0))
              = ((t:ℚ), some (waste_for L p t))
          ∧ (∀ u ∈ l1, waste_for L p t < waste_for L p u)
          ∧ (∀ u ∈ l2, waste_for L p t ≤ waste_for L p u)) := by
  intro l
  induction l with
  | nil =>
    intro t0 _
    left
    exact ⟨rfl, by simp⟩
  | cons u rest ih =>
    intro t0 hq
    have hqu := hq u (List.mem_cons_self u rest)
    have hqrest : ∀ v ∈ rest, 1 ≤ num_faces_for L p v ∧ 0 ≤ waste_for L p v :=
      fun v hv => hq v (List.mem_cons_of_mem u hv)
    have hstep : face_length_step L p ((t0:ℚ), some (waste_for L p t0)) u
        = if waste_for L p u < waste_for L p t0
          then ((u:ℚ), some (waste_for L p u)) else ((t0:ℚ), some (waste_for L p t0)) := by
      unfold face_length_step
      rw [if_neg (by omega), if_pos hqu.2]
    rw [List.foldl_cons, hstep]
    by_cases himp : waste_for L p u < waste_for L p t0
    · rw [if_pos himp]
      rcases ih u hqrest with ⟨heq, hall⟩ | ⟨t, l1, l2, hsplit, hlt, heq, h1, h2⟩
      · right
        exact ⟨u, [], rest, rfl, himp, heq, by simp, hall⟩
      · right
        refine ⟨t, u :: l1, l2, by rw [hsplit, List.cons_append], lt_trans hlt himp, heq, ?_, h2⟩
        intro v hv
        rcases List.mem_cons.mp hv with rfl | hv'
        · exact hlt
        · exact h1 v hv'
    · rw [if_neg himp]
      rcases ih t0 hqrest with ⟨heq, hall⟩ | ⟨t, l1, l2, hsplit, hlt, heq, h1, h2⟩
      · left
        refine ⟨heq, ?_⟩
        intro v hv
        rcases List.mem_cons.mp hv with rfl | hv'
        · exact not_lt.mp himp
        · exact hall v hv'
      · right
        refine ⟨t, u :: l1, l2, by rw [hsplit, List.cons_append], hlt, heq, ?_, h2⟩
        intro v hv
        rcases List.mem_cons.mp hv with rfl | hv'
        · exact lt_of_lt_of_le hlt (not_lt.mp himp)
        · exact h1 v hv'

/-- C7 counterexample: at an available extent of 50 m — below
`face_length_min = 150` — `_determine_face_length` returns 50 itself
(the code's first branch fires whenever `L ≤ face_length_max`), so the
chosen length equals `L` although `L` is outside
`[face_length_min, face_length_max]`, and no candidate search happens. -/
theorem face_length_choice_counterexample :
    _determine_face_length 50 DEFAULT_MINING_RULES = 50
    ∧ ¬(DEFAULT_MINING_RULES.face_length_min ≤ 50
        ∧ (50:ℚ) ≤ DEFAULT_MINING_RULES.face_length_max) := by
  constructor
  · unfold _determine_face_length
    rw [if_pos (by norm_num [DEFAULT_MINING_RULES])]
    norm_num [DEFAULT_MINING_RULES]
  · norm_num [DEFAULT_MINING_RULES]

/-- C7 (amended): the chosen face length equals `min L face_length_max`
whenever `L ≤ face_length_max` — in particular it equals `L` for every
`L ≤ face_length_max`, even below `face_length_min`; only when
`L > face_length_max` does the code search the integer-meter candidates
from `int(face_length_min)` to `int(face_length_max)` in steps of 10 m
and return the first candidate minimising the leftover length when tiling
`L` with `section_pillar`-wide gaps (earlier candidates beat later ones
on ties). -/
theorem face_length_choice (r : MiningRules) (L : ℚ)
    (hmin : 0 < r.face_length_min) (hmm : r.face_length_min ≤ r.face_length_max)
    (hp : 0 < r.section_pillar_preferred) :
    (L ≤ r.face_length_max → _determine_face_length L r = min L r.face_length_max)
    ∧ (r.face_length_max < L →
        ∃ (t : ℤ) (l1 l2 : List ℤ),
          pyRange10 (pyInt r.face_length_min) (pyInt r.face_length_max + 1) = l1 ++ t :: l2
          ∧ _determine_face_length L r = (t : ℚ)
          ∧ (∀ u ∈ l1, waste_for L r.section_pillar_preferred t
              < waste_for L r.section_pillar_preferred u)
          ∧ (∀ u ∈ l2, waste_for L r.section_pillar_preferred t
              ≤ waste_for L r.section_pillar_preferred u)) := by
  constructor
  · intro hle
    unfold _determine_face_length
    rw [if_pos hle]
  · intro hgt
    unfold _determine_face_length
    rw [if_neg (not_le.mpr hgt)]
    dsimp only
    have haf : pyInt r.face_length_min = ⌊r.face_length_min⌋ := by
      unfold pyInt; rw [if_pos (le_of_lt hmin)]
    have hbf : pyInt r.face_length_max = ⌊r.face_length_max⌋ := by
      unfold pyInt; rw [if_pos (by linarith)]
    have hab : pyInt r.face_length_min ≤ pyInt r.face_length_max := by
      rw [haf, hbf]; exact Int.floor_le_floor hmm
    have hqual : ∀ u ∈ pyRange10 (pyInt r.face_length_min) (pyInt r.face_length_max + 1),
        1 ≤ num_faces_for L r.section_pillar_preferred u
        ∧ 0 ≤ waste_for L r.section_pillar_preferred u := by
      intro u hu
      obtain ⟨h1, h2⟩ := pyRange10_bounds hu
      have hu0 : (0:ℤ) ≤ u := le_trans (by rw [haf]; exact Int.floor_nonneg.mpr (le_of_lt hmin)) h1
      have hup : 0 < (u:ℚ) + r.section_pillar_preferred := by
        have : (0:ℚ) ≤ (u:ℚ) := by exact_mod_cast hu0
        linarith
      have huL : (u:ℚ) ≤ L := by
        have hub : u ≤ pyInt r.face_length_max := by omega
        have hub2 : (u:ℚ) ≤ (pyInt r.face_length_max : ℚ) := by exact_mod_cast hub
        have hbmax : ((pyInt r.face_length_max : ℤ) : ℚ) ≤ r.face_length_max := by
          rw [hbf]; exact Int.floor_le _
        linarith
      exact ⟨num_faces_pos L r.section_pillar_preferred u hup huL,
        waste_nonneg L r.section_pillar_preferred u hup huL⟩
    cases hl : pyRange10 (pyInt r.face_length_min) (pyInt r.face_length_max + 1) with
    | nil => exact absurd hl (pyRange10_ne_nil hab)
    | cons c rest =>
      have hqc := hqual c (hl ▸ List.mem_cons_self c rest)
      have hqrest : ∀ v ∈ rest, 1 ≤ num_faces_for L r.section_pillar_preferred v
          ∧ 0 ≤ waste_for L r.section_pillar_preferred v :=
        fun v hv => hqual v (hl ▸ List.mem_cons_of_mem c hv)
      have hstep0 : face_length_step L r.section_pillar_preferred
          (r.face_length_preferred, none) c
          = ((c:ℚ), some (waste_for L r.section_pillar_preferred c)) := by
        unfold face_length_step
        rw [if_neg (by omega), if_pos hqc.2]
      rw [List.foldl_cons, hstep0]
      rcases face_length_fold_some L r.section_pillar_preferred rest c hqrest with
        ⟨heq, hall⟩ | ⟨t, l1, l2, hsplit, hlt, heq, h1, h2⟩
      · exact ⟨c, [], rest, rfl, by rw [heq], by simp, hall⟩
      · refine ⟨t, c :: l1, l2, by rw [hsplit, List.cons_append], by rw [heq], ?_, h2⟩
        intro v hv
        rcases List.mem_cons.mp hv with rfl | hv'
        · exact hlt
        · exact h1 v hv'

/-- Witness for C7 (amended) at the default rules and available extent
200 m, which lies below `face_length_max` and is used directly. -/
theorem face_length_choice_witness :
    ((0:ℚ) < DEFAULT_MINING_RULES.face_length_min
      ∧ DEFAULT_MINING_RULES.face_length_min ≤ DEFAULT_MINING_RULES.face_length_max
      ∧ (0:ℚ) < DEFAULT_MINING_RULES.section_pillar_preferred)
    ∧ ((200:ℚ) ≤ DEFAULT_MINING_RULES.face_length_max →
        _determine_face_length 200 DEFAULT_MINING_RULES
          = min 200 DEFAULT_MINING_RULES.face_length_max) :=
  ⟨⟨by decide, by decide, by decide⟩,
    (face_length_choice DEFAULT_MINING_RULES 200 (by decide) (by decide) (by decide)).1⟩

theorem dipPointsFor_length_le (bhs : List BoreholeGeology) (t : String) :
    (dipPointsFor bhs t).length ≤ bhs.length :=
  List.length_filterMap_le _ _

/-- C6 (confirmed): whenever fewer than 3 data points exist for the target
seam — in particular with only 2 boreholes — `calculate_dip_angle`
returns the degraded result with `confidence = "low"`, `dip_angle = 0`
and `dip_direction = 0` (and, being a total function, never raises). -/
theorem dip_angle_low_confidence (bhs : List BoreholeGeology) (t : String)
    (h : (dipPointsFor bhs t).length < 3) :
    ∃ n, calculate_dip_angle bhs (some t) = .degraded 0 0 n "low" := by
  unfold calculate_dip_angle
  by_cases hb : bhs.length < 3
  · rw [if_pos hb]
    exact ⟨bhs.length, rfl⟩
  · rw [if_neg hb]
    dsimp only
    rw [if_pos h]
    exact ⟨(dipPointsFor bhs t).length, rfl⟩

/-- Witness for C6: the 2-borehole scenario of the spec. -/
theorem dip_angle_low_confidence_witness :
    (dipPointsFor [scenarioBorehole "ZK1" 0 0 3.5, scenarioBorehole "ZK2" 4 0 3.5]
        "15-4煤").length < 3
    ∧ ∃ n, calculate_dip_angle
        [scenarioBorehole "ZK1" 0 0 3.5, scenarioBorehole "ZK2" 4 0 3.5]
        (some "15-4煤") = .degraded 0 0 n "low" :=
  ⟨by decide, dip_angle_low_confidence _ _ (by decide)⟩

theorem idwWeight_pos (x y : ℚ) (dp : SeamDataPoint) : 0 < idwWeight x y dp := by
  unfold idwWeight
  dsimp only
  split
  · norm_num
  · rename_i h
    have hd : (0:ℚ) < (dp.x - x) ^ 2 + (dp.y - y) ^ 2 :=
      lt_of_lt_of_le (by norm_num) (not_lt.mp h)
    exact div_pos one_pos hd

theorem sum_map_mul_le {α : Type} (l : List α) (f w : α → ℚ) (B : ℚ)
    (hw : ∀ a ∈ l, 0 ≤ w a) (hf : ∀ a ∈ l, f a ≤ B) :
    (l.map fun a => f a * w a).sum ≤ B * (l.map w).sum := by
  induction l with
  | nil => simp
  | cons d rest ih =>
    simp only [List.map_cons, List.sum_cons]
    have h1 : f d * w d ≤ B * w d :=
      mul_le_mul_of_nonneg_right (hf d (List.mem_cons_self d rest))
        (hw d (List.mem_cons_self d rest))
    have h2 := ih (fun a ha => hw a (List.mem_cons_of_mem d ha))
      (fun a ha => hf a (List.mem_cons_of_mem d ha))
    calc f d * w d + (rest.map fun a => f a * w a).sum
        ≤ B * w d + B * (rest.map w).sum := add_le_add h1 h2
      _ = B * (w d + (rest.map w).sum) := by ring

theorem le_sum_map_mul {α : Type} (l : List α) (f w : α → ℚ) (A : ℚ)
    (hw : ∀ a ∈ l, 0 ≤ w a) (hf : ∀ a ∈ l, A ≤ f a) :
    A * (l.map w).sum ≤ (l.map fun a => f a * w a).sum := by
  induction l with
  | nil => simp
  | cons d rest ih =>
    simp only [List.map_cons, List.sum_cons]
    have h1 : A * w d ≤ f d * w d :=
      mul_le_mul_of_nonneg_right (hf d (List.mem_cons_self d rest))
        (hw d (List.mem_cons_self d rest))
    have h2 := ih (fun a ha => hw a (List.mem_cons_of_mem d ha))
      (fun a ha => hf a (List.mem_cons_of_mem d ha))
    calc A * (w d + (rest.map w).sum) = A * w d + A * (rest.map w).sum := by ring
      _ ≤ f d * w d + (rest.map fun a => f a * w a).sum := add_le_add h1 h2

theorem sum_map_div {α : Type} (l : List α) (g : α → ℚ) (W : ℚ) :
    (l.map fun a => g a / W).sum = (l.map g).sum / W := by
  induction l with
  | nil => simp
  | cons d rest ih => simp [ih, add_div]

theorem sum_mul_div_eq {α : Type} (l : List α) (f g : α → ℚ) (W : ℚ) :
    (l.map fun a => f a * (g a / W)).sum = (l.map fun a => f a * g a).sum / W := by
  induction l with
  | nil => simp
  | cons d rest ih => simp [ih, add_div, mul_div_assoc]

theorem lookupRockScore_mem_or (tbl : List (String × ℚ)) (n : String) :
    lookupRockScore tbl n = 50 ∨ ∃ p ∈ tbl, lookupRockScore tbl n = p.2 := by
  induction tbl with
  | nil => left; rfl
  | cons kv rest ih =>
    unfold lookupRockScore
    split
    · right
      exact ⟨kv, List.mem_cons_self _ _, rfl⟩
    · rcases ih with h | ⟨p, hp, he⟩
      · left; exact h
      · right; exact ⟨p, List.mem_cons_of_mem _ hp, he⟩

theorem rock_hardness_bounded : ∀ p ∈ ROCK_HARDNESS, 10 ≤ p.2 ∧ p.2 ≤ 90 := by decide

theorem rock_water_bounded : ∀ p ∈ ROCK_WATER_STABILITY, 10 ≤ p.2 ∧ p.2 ≤ 90 := by decide

theorem get_rock_score_bounds (n ty : String) :
    10 ≤ _get_rock_score n ty ∧ _get_rock_score n ty ≤ 90 := by
  unfold _get_rock_score
  split
  · norm_num
  · split
    · rcases lookupRockScore_mem_or ROCK_HARDNESS n with h | ⟨p, hp, he⟩
      · rw [h]; norm_num
      · rw [he]; exact rock_hardness_bounded p hp
    · rcases lookupRockScore_mem_or ROCK_WATER_STABILITY n with h | ⟨p, hp, he⟩
      · rw [h]; norm_num
      · rw [he]; exact rock_water_bounded p hp

theorem thicknessStep_bounds (q : ℚ) : 20 ≤ thicknessStep q ∧ thicknessStep q ≤ 90 := by
  unfold thicknessStep
  split
  · norm_num
  · split
    · norm_num
    · split
      · norm_num
      · split <;> norm_num

theorem normalized_avg_bounds (dps : List SeamDataPoint) (hne : dps ≠ []) (x y : ℚ)
    (f : SeamDataPoint → ℚ) (A B : ℚ)
    (hA : ∀ dp ∈ dps, A ≤ f dp) (hB : ∀ dp ∈ dps, f dp ≤ B) :
    A ≤ (dps.map fun dp =>
        f dp * (idwWeight x y dp / (dps.map (idwWeight x y)).sum)).sum
    ∧ (dps.map fun dp =>
        f dp * (idwWeight x y dp / (dps.map (idwWeight x y)).sum)).sum ≤ B := by
  have hWpos : 0 < (dps.map (idwWeight x y)).sum := by
    apply List.sum_pos
    · intro q hq
      obtain ⟨dp, -, rfl⟩ := List.mem_map.mp hq
      exact idwWeight_pos x y dp
    · simpa using hne
  have hwnn : ∀ dp ∈ dps, 0 ≤ idwWeight x y dp / (dps.map (idwWeight x y)).sum :=
    fun dp _ => le_of_lt (div_pos (idwWeight_pos x y dp) hWpos)
  have hnorm : (dps.map fun dp =>
      idwWeight x y dp / (dps.map (idwWeight x y)).sum).sum = 1 := by
    rw [sum_map_div dps (fun dp => idwWeight x y dp) ((dps.map (idwWeight x y)).sum)]
    exact div_self (ne_of_gt hWpos)
  constructor
  · have := le_sum_map_mul dps f
      (fun dp => idwWeight x y dp / (dps.map (idwWeight x y)).sum) A hwnn hA
    rwa [hnorm, mul_one] at this
  · have := sum_map_mul_le dps f
      (fun dp => idwWeight x y dp / (dps.map (idwWeight x y)).sum) B hwnn hB
    rwa [hnorm, mul_one] at this

theorem pyRoundInt_le {q : ℚ} {n : ℤ} (h : q ≤ (n:ℚ)) : pyRoundInt q ≤ n := by
  have hfl : ⌊q⌋ ≤ n := by
    have h2 := Int.floor_le_floor h
    rwa [Int.floor_intCast] at h2
  unfold pyRoundInt
  dsimp only
  split
  · exact hfl
  · split
    · rename_i h1 h2
      have hlt : ⌊q⌋ < n := by
        by_contra hc
        have h3 : (n:ℚ) ≤ (⌊q⌋:ℚ) := by exact_mod_cast not_lt.mp hc
        have h4 : q - ⌊q⌋ ≤ 0 := by linarith [le_trans h h3]
        linarith
      omega
    · split
      · exact hfl
      · rename_i h1 h2 h3
        have heq : q - ⌊q⌋ = 1/2 := le_antisymm (not_lt.mp h2) (not_lt.mp h1)
        have hlt : ⌊q⌋ < n := by
          by_contra hc
          have h4 : (n:ℚ) ≤ (⌊q⌋:ℚ) := by exact_mod_cast not_lt.mp hc
          linarith
        omega

theorem pyRoundInt_nonneg {q : ℚ} (h : 0 ≤ q) : 0 ≤ pyRoundInt q := by
  have h0 : (0:ℤ) ≤ ⌊q⌋ := Int.floor_nonneg.mpr h
  unfold pyRoundInt
  dsimp only
  split
  · exact h0
  · split
    · omega
    · split <;> omega

theorem pyRound1_nonneg {q : ℚ} (h : 0 ≤ q) : 0 ≤ pyRound1 q := by
  unfold pyRound1
  have := pyRoundInt_nonneg (by linarith : (0:ℚ) ≤ 10 * q)
  positivity

theorem pyRound1_le_90 {q : ℚ} (h : q ≤ 90) : pyRound1 q ≤ 90 := by
  unfold pyRound1
  have h1 : pyRoundInt (10 * q) ≤ 900 := pyRoundInt_le (by push_cast; linarith)
  have h2 : ((pyRoundInt (10 * q) : ℤ) : ℚ) ≤ 900 := by exact_mod_cast h1
  linarith

/-- C10 (confirmed): the total score returned by
`calculate_score_at_point` always lies between 0 and 100, and in fact
never exceeds 90 — for every analyzer state, query point and target seam,
including the no-data case. -/
theorem total_score_in_range (bhs : List BoreholeGeology) (x y : ℚ)
    (target : Option String) :
    0 ≤ (calculate_score_at_point bhs x y target).total_score
    ∧ (calculate_score_at_point bhs x y target).total_score ≤ 90
    ∧ (calculate_score_at_point bhs x y target).total_score ≤ 100 := by
  unfold calculate_score_at_point
  dsimp only
  split
  · norm_num
  · rename_i hne
    dsimp only
    obtain ⟨hrA, hrB⟩ := normalized_avg_bounds (collectDataPoints bhs target) hne x y
      (fun dp => _get_rock_score dp.roof_rock "roof") 10 90
      (fun dp _ => (get_rock_score_bounds dp.roof_rock "roof").1)
      (fun dp _ => (get_rock_score_bounds dp.roof_rock "roof").2)
    obtain ⟨hfA, hfB⟩ := normalized_avg_bounds (collectDataPoints bhs target) hne x y
      (fun dp => _get_rock_score dp.floor_rock "floor") 10 90
      (fun dp _ => (get_rock_score_bounds dp.floor_rock "floor").1)
      (fun dp _ => (get_rock_score_bounds dp.floor_rock "floor").2)
    obtain ⟨htsA, htsB⟩ := thicknessStep_bounds
      ((collectDataPoints bhs target).map fun dp =>
        dp.thickness * (idwWeight x y dp /
          ((collectDataPoints bhs target).map (idwWeight x y)).sum)).sum
    refine ⟨pyRound1_nonneg (by linarith), ?_, ?_⟩
    · exact pyRound1_le_90 (by linarith)
    · have := pyRound1_le_90 (q := thicknessStep
        ((collectDataPoints bhs target).map fun dp =>
          dp.thickness * (idwWeight x y dp /
            ((collectDataPoints bhs target).map (idwWeight x y)).sum)).sum * 0.40
        + ((collectDataPoints bhs target).map fun dp =>
            _get_rock_score dp.roof_rock "roof" * (idwWeight x y dp /
              ((collectDataPoints bhs target).map (idwWeight x y)).sum)).sum * 0.35
        + ((collectDataPoints bhs target).map fun dp =>
            _get_rock_score dp.floor_rock "floor" * (idwWeight x y dp /
              ((collectDataPoints bhs target).map (idwWeight x y)).sum)).sum * 0.25)
        (by linarith)
      linarith

/-- C4 (confirmed): `calculate_score_at_point` refines the specification
formula — inverse-square-distance weights `1/max(dist,1)²` normalised to
sum to 1, thickness interpolated as the weighted average and mapped
through the step function `<0.8→20, <1.3→60, <3.5→90, <6→80, else 70`,
total `0.40·thickness + 0.35·roof + 0.25·floor` rounded to one decimal;
with zero matching boreholes it returns the neutral 50 with the no-data
message present. -/
theorem score_matches_spec (bhs : List BoreholeGeology) (x y : ℚ)
    (target : Option String) :
    ((calculate_score_at_point bhs x y target).total_score,
      (calculate_score_at_point bhs x y target).message.isSome)
      = specTotalScore bhs x y target := by
  unfold calculate_score_at_point specTotalScore
  dsimp only
  by_cases hdp : collectDataPoints bhs target = []
  · rw [if_pos hdp, if_pos hdp]
    rfl
  · rw [if_neg hdp, if_neg hdp]
    dsimp only
    rw [sum_mul_div_eq (collectDataPoints bhs target) (fun dp => dp.thickness)
        (idwWeight x y) ((collectDataPoints bhs target).map (idwWeight x y)).sum,
      sum_mul_div_eq (collectDataPoints bhs target)
        (fun dp => _get_rock_score dp.roof_rock "roof")
        (idwWeight x y) ((collectDataPoints bhs target).map (idwWeight x y)).sum,
      sum_mul_div_eq (collectDataPoints bhs target)
        (fun dp => _get_rock_score dp.floor_rock "floor")
        (idwWeight x y) ((collectDataPoints bhs target).map (idwWeight x y)).sum]
    rfl

theorem c5_collect : collectDataPoints c5Analyzer (some "15-4煤") =
    [⟨0, 0, 3.5, 100, "砾岩", "砾岩"⟩, ⟨4, 0, 3.5, 100, "砾岩", "砾岩"⟩,
     ⟨0, 4, 3.5, 100, "砾岩", "砾岩"⟩] := rfl

theorem c5_collect34 : collectDataPoints c5Analyzer34 (some "15-4煤") =
    [⟨0, 0, 3.4, 100, "砾岩", "砾岩"⟩, ⟨4, 0, 3.4, 100, "砾岩", "砾岩"⟩,
     ⟨0, 4, 3.4, 100, "砾岩", "砾岩"⟩] := rfl

/-- C5 counterexample: for 3 boreholes with target-seam thickness exactly
3.5 m and best-case lithology, queried at the first borehole's exact
coordinates, the total score is 86.0 — not within 1% of 90, because
thickness 3.5 is not strictly below the 3.5 breakpoint of the step
function and scores 80, not 90. -/
theorem idw_scenario_counterexample :
    (calculate_score_at_point c5Analyzer 0 0 (some "15-4煤")).total_score = 86
    ∧ ¬(|(calculate_score_at_point c5Analyzer 0 0 (some "15-4煤")).total_score - 90|
        ≤ 0.01 * 90) := by
  have h86 : (calculate_score_at_point c5Analyzer 0 0 (some "15-4煤")).total_score = 86 := by
    unfold calculate_score_at_point
    rw [c5_collect]
    rw [if_neg (by simp)]
    norm_num [idwWeight, thicknessStep, pyRound1, pyRoundInt,
      show _get_rock_score "砾岩" "roof" = 90 from rfl,
      show _get_rock_score "砾岩" "floor" = 90 from rfl]
  refine ⟨h86, ?_⟩
  rw [h86]
  intro hc
  rw [abs_le] at hc
  linarith [hc.1]

/-- C5 (amended): in the scenario of 3 boreholes with best-case lithology
queried at a borehole's exact coordinates, thickness exactly 3.5 m gives
total score exactly 86.0 (within 1% of 0.40·80+0.35·90+0.25·90 = 86, not
of 90); the 90.0 total requires the interpolated thickness to be strictly
below 3.5 m, e.g. 3.4 m. -/
theorem idw_scenario_totals :
    ((calculate_score_at_point c5Analyzer 0 0 (some "15-4煤")).total_score = 86
      ∧ |(calculate_score_at_point c5Analyzer 0 0 (some "15-4煤")).total_score - 86|
          ≤ 0.01 * 86)
    ∧ ((calculate_score_at_point c5Analyzer34 0 0 (some "15-4煤")).total_score = 90
      ∧ |(calculate_score_at_point c5Analyzer34 0 0 (some "15-4煤")).total_score - 90|
          ≤ 0.01 * 90) := by
  have h86 : (calculate_score_at_point c5Analyzer 0 0 (some "15-4煤")).total_score = 86 := by
    unfold calculate_score_at_point
    rw [c5_collect]
    rw [if_neg (by simp)]
    norm_num [idwWeight, thicknessStep, pyRound1, pyRoundInt,
      show _get_rock_score "砾岩" "roof" = 90 from rfl,
      show _get_rock_score "砾岩" "floor" = 90 from rfl]
  have h90 : (calculate_score_at_point c5Analyzer34 0 0 (some "15-4煤")).total_score = 90 := by
    unfold calculate_score_at_point
    rw [c5_collect34]
    rw [if_neg (by simp)]
    norm_num [idwWeight, thicknessStep, pyRound1, pyRoundInt,
      show _get_rock_score "砾岩" "roof" = 90 from rfl,
      show _get_rock_score "砾岩" "floor" = 90 from rfl]
  refine ⟨⟨h86, ?_⟩, ⟨h90, ?_⟩⟩
  · rw [h86]; norm_num
  · rw [h90]; norm_num

theorem workfaceRoadways_types (θ : ℝ) (c : RPoint) (tx : ℝ) (i : ℕ) (w : RotCenter) :
    ((workfaceRoadways θ c tx i w).map fun r => (r.type, r.workface))
      = [("transport", some w.id), ("return", some w.id), ("cut", some w.id)] := rfl

theorem enumFrom_flatMap_types (θ : ℝ) (c : RPoint) (tx : ℝ) :
    ∀ (l : List RotCenter) (n : ℕ),
      (((List.enumFrom n l).flatMap fun p => workfaceRoadways θ c tx p.1 p.2).map
          fun r => (r.type, r.workface))
        = l.flatMap fun w =>
            [("transport", some w.id), ("return", some w.id), ("cut", some w.id)] := by
  intro l
  induction l with
  | nil => intro n; rfl
  | cons w rest ih =>
    intro n
    rw [show List.enumFrom n (w :: rest) = (n, w) :: List.enumFrom (n + 1) rest from rfl]
    rw [List.flatMap_cons, List.map_append, ih (n + 1)]
    rw [workfaceRoadways_types θ c tx n w]
    rfl

theorem flatMap_three_length {α β : Type} (l : List α) (f : α → List β)
    (hf : ∀ w, (f w).length = 3) : (l.flatMap f).length = 3 * l.length := by
  induction l with
  | nil => simp
  | cons w rest ih =>
    rw [List.flatMap_cons, List.length_append, hf, ih, List.length_cons]
    ring

/-- C8 (confirmed): for every non-empty workface list, the roadway list
has exactly `2 + 3·n` entries: one `main` trunk, one `ventilation` trunk,
then per workface — in workface order — one `transport`, one `return`
and one `cut` roadway tagged with that workface's id. -/
theorem roadway_topology (wf0 : RoadwayWF) (rest : List RoadwayWF)
    (θ : ℝ) (c : Option RPoint) (ra : Option ℝ) :
    ((generate_roadways_v2 (wf0 :: rest) θ c ra).map fun r => (r.type, r.workface))
      = ("main", (none : Option String)) :: ("ventilation", none)
        :: ((wf0 :: rest).flatMap fun wf =>
              [("transport", some wf.id), ("return", some wf.id), ("cut", some wf.id)])
    ∧ (generate_roadways_v2 (wf0 :: rest) θ c ra).length
        = 2 + 3 * (wf0 :: rest).length := by
  have htypes : ((generate_roadways_v2 (wf0 :: rest) θ c ra).map
      fun r => (r.type, r.workface))
      = ("main", (none : Option String)) :: ("ventilation", none)
        :: ((wf0 :: rest).flatMap fun wf =>
              [("transport", some wf.id), ("return", some wf.id), ("cut", some wf.id)]) := by
    unfold generate_roadways_v2
    dsimp only
    have hmc : ∀ (x y : Roadway) (L : List Roadway),
        List.map (fun r => (r.type, r.workface)) (x :: y :: L)
          = (x.type, x.workface) :: (y.type, y.workface)
            :: List.map (fun r => (r.type, r.workface)) L := fun x y L => rfl
    rw [hmc]
    rw [enumFrom_flatMap_types]
    have hmapmap : ∀ (g : RoadwayWF → RotCenter), (∀ wf, (g wf).id = wf.id) →
        ∀ (l : List RoadwayWF),
        ((l.map g).flatMap fun w =>
            ([("transport", some w.id), ("return", some w.id), ("cut", some w.id)]
              : List (String × Option String)))
          = l.flatMap fun wf =>
              [("transport", some wf.id), ("return", some wf.id), ("cut", some wf.id)] := by
      intro g hg l
      induction l with
      | nil => rfl
      | cons a as iha =>
        rw [List.map_cons, List.flatMap_cons, List.flatMap_cons, iha, hg]
    refine congrArg (List.cons _) (congrArg (List.cons _) ?_)
    refine hmapmap _ ?_ (wf0 :: rest)
    intro wf
    rfl
  refine ⟨htypes, ?_⟩
  have hlen := congrArg List.length htypes
  rw [List.length_map] at hlen
  rw [hlen, List.length_cons, List.length_cons,
    flatMap_three_length (wf0 :: rest)
      (fun wf => [("transport", some wf.id), ("return", some wf.id), ("cut", some wf.id)])
      (fun w => rfl)]
  ring

theorem pointDist_rotateDeg (θ : ℝ) (c p q : RPoint) :
    pointDist (rotateDeg θ c p) (rotateDeg θ c q) = pointDist p q := by
  unfold pointDist rotateDeg
  dsimp only
  congr 1
  have hcs := Real.sin_sq_add_cos_sq (θ * Real.pi / 180)
  linear_combination ((p.1 - q.1) ^ 2 + (p.2 - q.2) ^ 2) * hcs

theorem pathLength_pair (p q : RPoint) : pathLength [p, q] = pointDist p q := by
  unfold pathLength
  rw [show pathLength [q] = 0 from rfl]
  ring

/-- C9 (confirmed): every roadway emitted by `generate_roadways_v2`
records a `length` equal to the sum of Euclidean distances between the
consecutive points of its `path` — exactly, in the real-number model: the
length is computed in the rotated frame while the path is rotated back,
and rotation about the centroid is an isometry. -/
theorem roadway_length_invariant (wfs : List RoadwayWF) (θ : ℝ) (c : Option RPoint)
    (ra : Option ℝ) :
    ∀ rw ∈ generate_roadways_v2 wfs θ c ra, rw.length = pathLength rw.path := by
  intro rw hmem
  cases wfs with
  | nil => simp [generate_roadways_v2] at hmem
  | cons wf0 rest =>
    unfold generate_roadways_v2 at hmem
    dsimp only at hmem
    rcases List.mem_cons.mp hmem with rfl | hmem2
    · rw [pathLength_pair, pointDist_rotateDeg]
    · rcases List.mem_cons.mp hmem2 with rfl | hmem3
      · rw [pathLength_pair, pointDist_rotateDeg]
      · obtain ⟨p, -, hmem4⟩ := List.mem_flatMap.mp hmem3
        unfold workfaceRoadways at hmem4
        dsimp only at hmem4
        rcases List.mem_cons.mp hmem4 with rfl | hmem5
        · rw [pathLength_pair, pointDist_rotateDeg]
        · rcases List.mem_cons.mp hmem5 with rfl | hmem6
          · rw [pathLength_pair, pointDist_rotateDeg]
          · rcases List.mem_cons.mp hmem6 with rfl | hmem7
            · rw [pathLength_pair, pointDist_rotateDeg]
            · simp at hmem7

/-- Witness for C9 at a single concrete workface and rotation angle 0:
the claim applies to the trunk transport roadway. -/
theorem roadway_length_invariant_witness :
    ((generate_roadways_v2 c9Args 0 (some (0, 0)) none).headI
        ∈ generate_roadways_v2 c9Args 0 (some (0, 0)) none)
    ∧ (generate_roadways_v2 c9Args 0 (some (0, 0)) none).headI.length
        = pathLength (generate_roadways_v2 c9Args 0 (some (0, 0)) none).headI.path := by
  have hmem : (generate_roadways_v2 c9Args 0 (some (0, 0)) none).headI
      ∈ generate_roadways_v2 c9Args 0 (some (0, 0)) none :=
    List.mem_cons_self _ _
  exact ⟨hmem, roadway_length_invariant c9Args 0 (some (0, 0)) none _ hmem⟩

end Shejixitong
